import Mathlib

/-!
Verification of the step execution contract in
`src/ingestion/src/metadata/ingestion/api/step.py`.

The file defines a shallow embedding of the four step variants
(`ReturnStep`, `StageStep`, `IterStep`, `BulkStep`) and of the status
bookkeeping they perform, and proves the spec's claims about them.

Python exceptions are modelled explicitly: the internal `_run` / `_iter`
logic of a step either produces values or raises, and raising is encoded
as an explicit constructor (`fatal` for `WorkflowFatalError`, `exn` for
any other exception together with its message and captured traceback).
A lazy source iterable is a list of events, where an event is either a
produced envelope or a raise that terminates the iterable at that point.
-/

/-- Modelled from the spec: the Failure Record
`{name: string, error: string, stackTrace: string}`; the class
`StackTraceError` lives in `metadata.ingestion.api.models`, which is not
part of the sources under verification. -/
structure StackTraceError where
  name : String
  error : String
  stack_trace : String
  deriving DecidableEq

/-- Modelled from the spec: the Result Envelope with a `left` failure side
and a `right` payload side, as used by `step.py` (`result.left`,
`result.right`, each possibly `None`); the class `Either` lives in
`metadata.ingestion.api.models`, which is not part of the sources under
verification. -/
structure Either (α : Type) where
  left : Option StackTraceError
  right : Option α
  deriving DecidableEq

/-- An envelope is a failure when its `left` side is set. -/
def Either.isFailure {α : Type} (e : Either α) : Bool :=
  e.left.isSome

/-- An envelope holds exactly one of failure or payload. -/
def Either.exactlyOne {α : Type} (e : Either α) : Bool :=
  e.left.isSome ^^ e.right.isSome

/-- Modelled from the spec: the Status Recorder
`{successCount, failureCount, failures}`; the class `Status` lives in
`metadata.ingestion.api.status`, which is not part of the sources under
verification. -/
structure Status where
  successCount : Nat
  failureCount : Nat
  failures : List StackTraceError
  deriving DecidableEq

/-- Modelled from the spec: `recordFailure` increments `failureCount` and
appends the record (`self.status.failed(...)` in `step.py`). -/
def Status.failed (st : Status) (f : StackTraceError) : Status :=
  { st with failureCount := st.failureCount + 1, failures := st.failures ++ [f] }

/-- Modelled from the spec: `recordSuccess` increments `successCount`; the
payload is only counted, not retained (`self.status.scanned(...)` in
`step.py`). -/
def Status.scanned (st : Status) : Status :=
  { st with successCount := st.successCount + 1 }

/-- Componentwise order on the two counters of a Status Recorder. -/
def Status.countsLe (s1 s2 : Status) : Prop :=
  s1.successCount ≤ s2.successCount ∧ s1.failureCount ≤ s2.failureCount

instance (s1 s2 : Status) : Decidable (Status.countsLe s1 s2) := by
  unfold Status.countsLe; infer_instance

/-- Outcome of one invocation of a `ReturnStep`'s internal `_run`: it
either returns an `Either` envelope, raises `WorkflowFatalError`, or
raises some other exception (message plus captured traceback). -/
inductive RunResult (α : Type) where
  | ok (result : Either α)
  | fatal (msg : String)
  | exn (msg : String) (trace : String)
  deriving DecidableEq

/-- The error string built by `ReturnStep.run` / `StageStep.run` for an
unexpected exception. -/
def unhandledError (msg : String) : String :=
  "Unhandled exception during workflow processing: [" ++ msg ++ "]"

/-- The `StackTraceError` that `ReturnStep.run` / `StageStep.run` record
for an unexpected exception. -/
def unhandledRecord (msg trace : String) : StackTraceError :=
  { name := "Unhandled", error := unhandledError msg, stack_trace := trace }

/-- What a caller of `ReturnStep.run` observes: either a normal return of
an optional entity, or a propagated `WorkflowFatalError`. -/
inductive ReturnOutcome (α : Type) where
  | ret (value : Option α)
  | raisedFatal (msg : String)
  deriving DecidableEq

/-- `ReturnStep.run` from `step.py`: run `_run` once; on a `left` result
record the failure and return `None`; otherwise on a `right` result record
the success and return it; re-raise `WorkflowFatalError`; turn any other
exception into an `Unhandled` failure record and return `None`. -/
def ReturnStep.run {α : Type} (r : RunResult α) (st : Status) :
    ReturnOutcome α × Status :=
  match r with
  | .fatal msg => (.raisedFatal msg, st)
  | .exn msg trace => (.ret none, st.failed (unhandledRecord msg trace))
  | .ok result =>
    match result.left with
    | some f => (.ret none, st.failed f)
    | none =>
      match result.right with
      | some v => (.ret (some v), st.scanned)
      | none => (.ret none, st)

/-- One pull from the lazy iterable produced by a `StageStep`'s `_run` or
an `IterStep`'s `_iter`: the iterable either produces an envelope, raises
`WorkflowFatalError`, or raises some other exception.  A Python iterator
that raises is finished, so the events after a raise are unreachable and
the run functions below ignore them. -/
inductive IterEvent (α : Type) where
  | item (result : Either α)
  | raiseFatal (msg : String)
  | raiseExn (msg : String) (trace : String)
  deriving DecidableEq

/-- What a caller of `StageStep.run` observes: either a normal `None`
return, or a propagated `WorkflowFatalError`. -/
inductive StageOutcome where
  | done
  | raisedFatal (msg : String)
  deriving DecidableEq

/-- The per-envelope recorder update in `StageStep.run`'s drain loop:
record a failure if `left` is set, then a success if `right` is set (the
loop body has no early exit, so an envelope with both sides set records
both). -/
def StageStep.processItem {α : Type} (result : Either α) (st : Status) :
    Status :=
  let st1 := match result.left with
    | some f => st.failed f
    | none => st
  match result.right with
  | some _ => st1.scanned
  | none => st1

/-- `StageStep.run` from `step.py`: drain `_run`'s iterable, updating the
recorder per envelope; re-raise `WorkflowFatalError`; turn any other
exception into an `Unhandled` failure record; always return `None`
otherwise. -/
def StageStep.run {α : Type} (events : List (IterEvent α)) (st : Status) :
    StageOutcome × Status :=
  match events with
  | [] => (.done, st)
  | .item result :: rest => StageStep.run rest (StageStep.processItem result st)
  | .raiseFatal msg :: _ => (.raisedFatal msg, st)
  | .raiseExn msg trace :: _ => (.done, st.failed (unhandledRecord msg trace))

/-- The recorder state of a `StageStep` after its drain loop has consumed
the first `i` events of the source. -/
def StageStep.statusUpTo {α : Type} (events : List (IterEvent α))
    (st : Status) (i : Nat) : Status :=
  (StageStep.run (events.take i) st).2

/-- How the generator returned by `IterStep.run` ends: normal exhaustion,
or a propagated `WorkflowFatalError` out of the consumer's pull. -/
inductive IterTerminal where
  | done
  | raisedFatal (msg : String)
  deriving DecidableEq

/-- The `StackTraceError` that `IterStep.run` records for an unexpected
exception; `self` is the step's printed identity. -/
def IterStep.iterUnhandledRecord (self msg trace : String) : StackTraceError :=
  { name := "Unhandled",
    error := "Encountered exception running step [" ++ self ++ "]: [" ++ msg ++ "]",
    stack_trace := trace }

/-- The per-envelope body of `IterStep.run`'s generator loop: if `left` is
set, record the failure and yield `None`; if `right` is set, record the
success and yield the payload (an envelope with both sides set does both,
in that order; one with neither does nothing).  Returns the yielded
elements in order together with the updated recorder. -/
def IterStep.processItem {α : Type} (result : Either α) (st : Status) :
    List (Option α) × Status :=
  let s1 : List (Option α) × Status := match result.left with
    | some f => ([none], st.failed f)
    | none => ([], st)
  match result.right with
  | some v => (s1.1 ++ [some v], s1.2.scanned)
  | none => s1

/-- `IterStep.run` from `step.py`: a generator over `_iter`'s events that
yields per envelope as in `IterStep.processItem`; a `WorkflowFatalError`
raised by the source propagates out of the consumer's pull; any other
exception raised by the source is recorded as an `Unhandled` failure and
the generator ends (the `for` loop is over, so no further elements are
produced).  The result lists the yielded elements in order, the final
recorder state, and how the generator ended. -/
def IterStep.run {α : Type} (self : String) (events : List (IterEvent α))
    (st : Status) : List (Option α) × Status × IterTerminal :=
  match events with
  | [] => ([], st, .done)
  | .item result :: rest =>
    let p := IterStep.processItem result st
    let r := IterStep.run self rest p.2
    (p.1 ++ r.1, r.2)
  | .raiseFatal msg :: _ => ([], st, .raisedFatal msg)
  | .raiseExn msg trace :: _ =>
    ([], st.failed (IterStep.iterUnhandledRecord self msg trace), .done)

/-- The emissions and recorder updates of `IterStep.run` restricted to a
raise-free source: exactly the generator's behavior on a list of
envelopes. -/
def IterStep.runItems {α : Type} (results : List (Either α)) (st : Status) :
    List (Option α) × Status :=
  match results with
  | [] => ([], st)
  | r :: rest =>
    let p := IterStep.processItem r st
    let q := IterStep.runItems rest p.2
    (p.1 ++ q.1, q.2)

/-- The recorder state of an `IterStep` after the consumer has pulled
through the first `i` events of the source. -/
def IterStep.statusUpTo {α : Type} (self : String)
    (events : List (IterEvent α)) (st : Status) (i : Nat) : Status :=
  (IterStep.run self (events.take i) st).2.1

/-- What a caller of `BulkStep.run` observes: a normal `None` return, or a
propagated exception — fatal (`WorkflowFatalError`) or any other. -/
inductive BulkOutcome where
  | done
  | raised (isFatal : Bool) (msg : String)
  deriving DecidableEq

/-- `BulkStep.run` from `step.py` is abstract and the class wraps it in no
error-handling logic at all: the caller observes exactly what the concrete
step's own `run` body does to the recorder and raises. -/
def BulkStep.run (body : Status → BulkOutcome × Status) (st : Status) :
    BulkOutcome × Status :=
  body st

/-- A concrete failure record reused by the concrete-input witnesses. -/
def parseErr : StackTraceError :=
  { name := "ParseError", error := "bad row", stack_trace := "tb" }

/-- A concrete source: payload, failure, payload. -/
def demoResults : List (Either Nat) :=
  [⟨none, some 1⟩, ⟨some parseErr, none⟩, ⟨none, some 2⟩]

/-- C1: for a `ReturnStep` whose `_run` returns an envelope holding exactly
one of failure or payload: a `Payload(X)` envelope makes `run()` return
`X`, increment `successCount` by one and leave `failureCount` and the
failures sequence unchanged; a `Failure(F)` envelope makes `run()` return
nothing, increment `failureCount` by one and append `F` to the failures
sequence, leaving `successCount` unchanged. -/
theorem returnStep_run_payload_and_failure {α : Type} (x : α)
    (f : StackTraceError) (st : Status) :
    (ReturnStep.run (.ok ⟨none, some x⟩) st = (.ret (some x), st.scanned)
      ∧ (st.scanned).successCount = st.successCount + 1
      ∧ (st.scanned).failureCount = st.failureCount
      ∧ (st.scanned).failures = st.failures)
    ∧ (ReturnStep.run (α := α) (.ok ⟨some f, none⟩) st = (.ret none, st.failed f)
      ∧ (st.failed f).failureCount = st.failureCount + 1
      ∧ (st.failed f).successCount = st.successCount
      ∧ (st.failed f).failures = st.failures ++ [f]) :=
  ⟨⟨rfl, rfl, rfl, rfl⟩, ⟨rfl, rfl, rfl, rfl⟩⟩

/-- C4: for a `ReturnStep` whose `_run` raises `WorkflowFatalError`, `run()`
re-raises the same signal and the Status Recorder is unchanged from its
pre-call state. -/
theorem returnStep_run_fatal {α : Type} (msg : String) (st : Status) :
    ReturnStep.run (α := α) (.fatal msg) st = (.raisedFatal msg, st) :=
  rfl

/-- C9: for a `ReturnStep` whose `_run` returns an envelope with both sides
absent, `run()` returns nothing and the Status Recorder is completely
unchanged. -/
theorem returnStep_run_noop_envelope {α : Type} (st : Status) :
    ReturnStep.run (α := α) (.ok ⟨none, none⟩) st = (.ret none, st) :=
  rfl

/-- C5: `ReturnStep.run` never raises any exception other than the fatal
signal: an arbitrary unexpected error from `_run` makes `run()` return
nothing with exactly one `Unhandled` record (carrying the captured trace)
appended to the failures sequence, and for any `_run` outcome whatsoever,
the only way `run()` raises is by re-raising a `WorkflowFatalError` that
`_run` itself raised. -/
theorem returnStep_run_never_raises {α : Type} (msg trace : String)
    (st : Status) (r : RunResult α) :
    (ReturnStep.run (α := α) (.exn msg trace) st
        = (.ret none, st.failed (unhandledRecord msg trace))
      ∧ (st.failed (unhandledRecord msg trace)).failures
        = st.failures ++ [unhandledRecord msg trace]
      ∧ (unhandledRecord msg trace).name = "Unhandled"
      ∧ (unhandledRecord msg trace).stack_trace = trace)
    ∧ (∀ m : String, (ReturnStep.run r st).1 = .raisedFatal m → r = .fatal m) := by
  refine ⟨⟨rfl, rfl, rfl, rfl⟩, ?_⟩
  intro m hm
  match r with
  | .fatal m' =>
    simp only [ReturnStep.run, ReturnOutcome.raisedFatal.injEq] at hm
    exact hm ▸ rfl
  | .exn m' t' => simp [ReturnStep.run] at hm
  | .ok result =>
    simp only [ReturnStep.run] at hm
    match hl : result.left with
    | some f => rw [hl] at hm; simp at hm
    | none =>
      rw [hl] at hm
      match hr : result.right with
      | some v => rw [hr] at hm; simp at hm
      | none => rw [hr] at hm; simp at hm

/-- Witness for C5 at concrete inputs: an unexpected error is absorbed as
an `Unhandled` failure record, and a raised fatal outcome can only come
from a fatal `_run`. -/
theorem returnStep_run_never_raises_witness :
    (ReturnStep.run (α := Nat) (.exn "boom" "tb") ⟨0, 0, []⟩
        = (.ret none, Status.failed ⟨0, 0, []⟩ (unhandledRecord "boom" "tb")))
    ∧ (RunResult.fatal (α := Nat) "lost") = .fatal "lost" :=
  ⟨(returnStep_run_never_raises "boom" "tb" ⟨0, 0, []⟩
      (RunResult.fatal (α := Nat) "lost")).1.1,
   (returnStep_run_never_raises "boom" "tb" ⟨0, 0, []⟩
      (RunResult.fatal (α := Nat) "lost")).2 "lost" rfl⟩

/-- Counting helper for `StageStep.run` over an all-item source whose
envelopes each hold exactly one of failure or payload: the drain finishes
normally, adds the number of failure envelopes to `failureCount` and the
number of payload envelopes to `successCount`. -/
theorem stageStep_run_items_aux {α : Type} (results : List (Either α)) :
    ∀ st : Status, (∀ e ∈ results, e.exactlyOne = true) →
      (StageStep.run (results.map .item) st).1 = .done
      ∧ (StageStep.run (results.map .item) st).2.failureCount
          = st.failureCount + results.countP Either.isFailure
      ∧ (StageStep.run (results.map .item) st).2.successCount
          = st.successCount + (results.length - results.countP Either.isFailure) := by
  induction results with
  | nil =>
    intro st _
    exact ⟨rfl, by simp [StageStep.run], by simp [StageStep.run]⟩
  | cons e es ih =>
    intro st h
    have he : e.exactlyOne = true := h e (List.mem_cons_self e es)
    have hes : ∀ x ∈ es, x.exactlyOne = true :=
      fun x hx => h x (List.mem_cons_of_mem e hx)
    have hk : es.countP Either.isFailure ≤ es.length := List.countP_le_length _
    match hl : e.left, hr : e.right with
    | some f, some v => simp [Either.exactlyOne, hl, hr] at he
    | none, none => simp [Either.exactlyOne, hl, hr] at he
    | some f, none =>
      have hrun : StageStep.run ((e :: es).map IterEvent.item) st
          = StageStep.run (es.map IterEvent.item) (st.failed f) := by
        simp [StageStep.run, StageStep.processItem, hl, hr]
      obtain ⟨h1, h2, h3⟩ := ih (st.failed f) hes
      refine ⟨by rw [hrun]; exact h1, ?_, ?_⟩
      · rw [hrun, h2]
        simp [Status.failed, List.countP_cons, Either.isFailure, hl]
        omega
      · rw [hrun, h3]
        simp [Status.failed, List.countP_cons, Either.isFailure, hl]
    | none, some v =>
      have hrun : StageStep.run ((e :: es).map IterEvent.item) st
          = StageStep.run (es.map IterEvent.item) st.scanned := by
        simp [StageStep.run, StageStep.processItem, hl, hr]
      obtain ⟨h1, h2, h3⟩ := ih st.scanned hes
      refine ⟨by rw [hrun]; exact h1, ?_, ?_⟩
      · rw [hrun, h2]
        simp [Status.scanned, List.countP_cons, Either.isFailure, hl]
      · rw [hrun, h3]
        simp [Status.scanned, List.countP_cons, Either.isFailure, hl]
        omega

/-- C6: for a `StageStep` whose `_run` yields `n` envelopes each holding
exactly one of failure or payload, with `k` failures and `n − k` payloads,
`run()` returns nothing and, relative to the pre-call recorder, adds `k`
to `failureCount` and `n − k` to `successCount` (so from a fresh recorder
the counts equal `k` and `n − k`). -/
theorem stageStep_run_counts {α : Type} (results : List (Either α))
    (st : Status) (h : ∀ e ∈ results, e.exactlyOne = true) :
    (StageStep.run (results.map .item) st).1 = .done
    ∧ (StageStep.run (results.map .item) st).2.failureCount
        = st.failureCount + results.countP Either.isFailure
    ∧ (StageStep.run (results.map .item) st).2.successCount
        = st.successCount + (results.length - results.countP Either.isFailure) :=
  stageStep_run_items_aux results st h

/-- Witness for C6 on a concrete 3-envelope source with one failure:
the drain returns nothing and ends with one failure and two successes. -/
theorem stageStep_run_counts_witness :
    (StageStep.run (demoResults.map IterEvent.item) ⟨0, 0, []⟩).1 = .done
    ∧ (StageStep.run (demoResults.map IterEvent.item) ⟨0, 0, []⟩).2.failureCount = 1
    ∧ (StageStep.run (demoResults.map IterEvent.item) ⟨0, 0, []⟩).2.successCount = 2 := by
  obtain ⟨h1, h2, h3⟩ := stageStep_run_counts demoResults ⟨0, 0, []⟩ (by decide)
  exact ⟨h1, by rw [h2]; decide, by rw [h3]; decide⟩

/-- On a raise-free source, `IterStep.run` is `IterStep.runItems` and the
generator ends by normal exhaustion. -/
theorem iterStep_run_items_eq {α : Type} (self : String)
    (rs : List (Either α)) :
    ∀ st : Status, IterStep.run self (rs.map .item) st
      = ((IterStep.runItems rs st).1, (IterStep.runItems rs st).2, .done) := by
  induction rs with
  | nil => intro st; rfl
  | cons r rest ih =>
    intro st
    simp only [List.map_cons, IterStep.run, IterStep.runItems, ih]

/-- Splitting `IterStep.run` at the end of a raise-free item block: the
items are processed first, then the rest of the events from the updated
recorder, and the emissions concatenate in order. -/
theorem iterStep_run_items_append {α : Type} (self : String)
    (rs : List (Either α)) (evs : List (IterEvent α)) :
    ∀ st : Status, IterStep.run self (rs.map .item ++ evs) st
      = ((IterStep.runItems rs st).1
           ++ (IterStep.run self evs (IterStep.runItems rs st).2).1,
         (IterStep.run self evs (IterStep.runItems rs st).2).2) := by
  induction rs with
  | nil => intro st; simp [IterStep.runItems]
  | cons r rest ih =>
    intro st
    simp only [List.map_cons, List.cons_append, IterStep.run, List.append_eq,
      ih, IterStep.runItems, List.append_assoc]

/-- On envelopes holding exactly one of failure or payload, the generator
emits exactly the `right` side of each envelope, in source order. -/
theorem iterStep_runItems_emissions {α : Type} (rs : List (Either α)) :
    ∀ st : Status, (∀ e ∈ rs, e.exactlyOne = true) →
      (IterStep.runItems rs st).1 = rs.map Either.right := by
  induction rs with
  | nil => intro st _; rfl
  | cons e es ih =>
    intro st h
    have he : e.exactlyOne = true := h e (List.mem_cons_self e es)
    have hes : ∀ x ∈ es, x.exactlyOne = true :=
      fun x hx => h x (List.mem_cons_of_mem e hx)
    match hl : e.left, hr : e.right with
    | some f, some v => simp [Either.exactlyOne, hl, hr] at he
    | none, none => simp [Either.exactlyOne, hl, hr] at he
    | some f, none =>
      simp [IterStep.runItems, IterStep.processItem, hl, hr, ih _ hes]
    | none, some v =>
      simp [IterStep.runItems, IterStep.processItem, hl, hr, ih _ hes]

/-- `IterStep.runItems` splits over list concatenation: the second block
runs from the recorder the first block left behind, and the emissions
concatenate in order. -/
theorem iterStep_runItems_append {α : Type} (rs1 rs2 : List (Either α)) :
    ∀ st : Status, IterStep.runItems (rs1 ++ rs2) st
      = ((IterStep.runItems rs1 st).1
           ++ (IterStep.runItems rs2 (IterStep.runItems rs1 st).2).1,
         (IterStep.runItems rs2 (IterStep.runItems rs1 st).2).2) := by
  induction rs1 with
  | nil => intro st; simp [IterStep.runItems]
  | cons r rest ih =>
    intro st
    simp only [List.cons_append, IterStep.runItems, List.append_eq, ih,
      List.append_assoc]

/-- An envelope holding exactly one of failure or payload has an empty
`right` side exactly when it is a failure. -/
theorem exactlyOne_right_none_iff {α : Type} (e : Either α)
    (he : e.exactlyOne = true) : e.right = none ↔ e.isFailure = true := by
  match hl : e.left, hr : e.right with
  | some f, some v => simp [Either.exactlyOne, hl, hr] at he
  | none, none => simp [Either.exactlyOne, hl, hr] at he
  | some f, none => simp [Either.isFailure, hl, hr]
  | none, some v => simp [Either.isFailure, hl, hr]

/-- On a raise-free source the recorder state after `i` pulls is that of
processing the first `i` envelopes. -/
theorem iterStep_statusUpTo_items {α : Type} (self : String)
    (rs : List (Either α)) (st : Status) (i : Nat) :
    IterStep.statusUpTo self (rs.map .item) st i
      = (IterStep.runItems (rs.take i) st).2 := by
  unfold IterStep.statusUpTo
  rw [← List.map_take, iterStep_run_items_eq]

/-- Processing one more envelope applies that envelope's recorder update
to the recorder state reached after the previous envelopes. -/
theorem iterStep_runItems_take_succ {α : Type} (rs : List (Either α))
    (st : Status) (i : Nat) (hi : i < rs.length) :
    (IterStep.runItems (rs.take (i + 1)) st).2
      = (IterStep.processItem (rs.get ⟨i, hi⟩)
          (IterStep.runItems (rs.take i) st).2).2 := by
  have ht : rs.take (i + 1) = rs.take i ++ [rs.get ⟨i, hi⟩] := by
    rw [List.take_succ, List.getElem?_eq_getElem hi]
    rfl
  rw [ht, iterStep_runItems_append]
  simp [IterStep.runItems]

/-- C2: for an `IterStep` over a source of `n` envelopes each holding
exactly one of failure or payload, `run()` yields exactly `n` elements, in
source order (the `right` side of each envelope), with element `i` empty
iff source envelope `i` is a failure; and the recorder effect for element
`i` is applied before that for element `i + 1`: the recorder after `i + 1`
pulls is the recorder after `i` pulls updated by envelope `i` alone. -/
theorem iterStep_run_alignment {α : Type} (self : String)
    (rs : List (Either α)) (st : Status)
    (h : ∀ e ∈ rs, e.exactlyOne = true) :
    (IterStep.run self (rs.map .item) st).1 = rs.map Either.right
    ∧ (IterStep.run self (rs.map .item) st).1.length = rs.length
    ∧ (∀ i : Nat, ∀ hi : i < rs.length,
        ((IterStep.run self (rs.map .item) st).1[i]? = some none
          ↔ (rs.get ⟨i, hi⟩).isFailure = true))
    ∧ (∀ i : Nat, ∀ hi : i < rs.length,
        IterStep.statusUpTo self (rs.map .item) st (i + 1)
          = (IterStep.processItem (rs.get ⟨i, hi⟩)
              (IterStep.statusUpTo self (rs.map .item) st i)).2) := by
  have h1 : (IterStep.run self (rs.map .item) st).1 = rs.map Either.right := by
    rw [iterStep_run_items_eq]
    exact iterStep_runItems_emissions rs st h
  refine ⟨h1, by rw [h1]; simp, ?_, ?_⟩
  · intro i hi
    rw [h1, List.getElem?_map, List.getElem?_eq_getElem hi]
    have hmap : Option.map Either.right (some rs[i]) = some (rs[i].right) := rfl
    rw [hmap, Option.some_inj]
    exact exactlyOne_right_none_iff rs[i] (h _ (rs.get_mem i hi))
  · intro i hi
    rw [iterStep_statusUpTo_items, iterStep_statusUpTo_items,
      iterStep_runItems_take_succ rs st i hi]

/-- Witness for C2 on the concrete source payload–failure–payload: the
generator yields `[some 1, none, some 2]` and the recorder after two pulls
is the recorder after one pull updated by the second envelope. -/
theorem iterStep_run_alignment_witness :
    (IterStep.run "demo" (demoResults.map IterEvent.item) ⟨0, 0, []⟩).1
      = [some 1, none, some 2]
    ∧ IterStep.statusUpTo "demo" (demoResults.map IterEvent.item) ⟨0, 0, []⟩ 2
        = (IterStep.processItem (demoResults.get ⟨1, by decide⟩)
            (IterStep.statusUpTo "demo" (demoResults.map IterEvent.item)
              ⟨0, 0, []⟩ 1)).2 := by
  obtain ⟨h1, _, _, h4⟩ :=
    iterStep_run_alignment "demo" demoResults ⟨0, 0, []⟩ (by decide)
  exact ⟨h1.trans (by decide), h4 1 (by decide)⟩

/-- C3: for an `IterStep` whose source raises an unexpected (non-fatal)
error after some envelopes, the error is converted to a failure record
named `Unhandled` and recorded; the wrapper emits exactly the elements of
the envelopes before the raise and its sequence then ends normally
(whatever unreachable events would have followed); and on a raise-free
source the wrapper never ends early — it processes every envelope. -/
theorem iterStep_run_unhandled {α : Type} (self msg trace : String)
    (rs : List (Either α)) (rest : List (IterEvent α)) (st : Status) :
    (IterStep.run self (rs.map .item ++ (.raiseExn msg trace :: rest)) st
        = ((IterStep.runItems rs st).1,
           (IterStep.runItems rs st).2.failed
             (IterStep.iterUnhandledRecord self msg trace),
           .done))
    ∧ (IterStep.iterUnhandledRecord self msg trace).name = "Unhandled"
    ∧ IterStep.run self (rs.map .item) st
        = ((IterStep.runItems rs st).1, (IterStep.runItems rs st).2, .done) := by
  refine ⟨?_, rfl, iterStep_run_items_eq self rs st⟩
  rw [iterStep_run_items_append]
  simp [IterStep.run]

/-- C10: for an `IterStep`, a source envelope carrying both a failure
record and a payload produces two emissions — an empty placeholder, then
the payload — and increments both `failureCount` and `successCount`, so a
single such envelope yields a two-element sequence and one-emission-per-
envelope positional correspondence fails. -/
theorem iterStep_run_both_sides {α : Type} (self : String)
    (f : StackTraceError) (v : α) (st : Status) :
    IterStep.run self [.item ⟨some f, some v⟩] st
      = ([none, some v], (st.failed f).scanned, .done)
    ∧ (IterStep.run self [.item ⟨some f, some v⟩] st).1.length = 2
    ∧ ((st.failed f).scanned).successCount = st.successCount + 1
    ∧ ((st.failed f).scanned).failureCount = st.failureCount + 1 :=
  ⟨rfl, rfl, rfl, rfl⟩

/-- `countsLe` is reflexive. -/
theorem countsLe_refl (s : Status) : s.countsLe s :=
  ⟨le_refl _, le_refl _⟩

/-- `countsLe` is transitive. -/
theorem countsLe_trans {a b c : Status} (h1 : a.countsLe b)
    (h2 : b.countsLe c) : a.countsLe c :=
  ⟨h1.1.trans h2.1, h1.2.trans h2.2⟩

/-- Recording a failure never decreases either counter. -/
theorem failed_countsLe (st : Status) (f : StackTraceError) :
    st.countsLe (st.failed f) :=
  ⟨le_refl _, Nat.le_succ _⟩

/-- Recording a success never decreases either counter. -/
theorem scanned_countsLe (st : Status) : st.countsLe st.scanned :=
  ⟨Nat.le_succ _, le_refl _⟩

/-- One `StageStep` drain-loop iteration never decreases the counters. -/
theorem stageProcess_countsLe {α : Type} (r : Either α) (st : Status) :
    st.countsLe (StageStep.processItem r st) := by
  match hl : r.left, hr : r.right with
  | some f, some v =>
    simp only [StageStep.processItem, hl, hr]
    exact countsLe_trans (failed_countsLe st f) (scanned_countsLe _)
  | some f, none =>
    simp only [StageStep.processItem, hl, hr]
    exact failed_countsLe st f
  | none, some v =>
    simp only [StageStep.processItem, hl, hr]
    exact scanned_countsLe st
  | none, none =>
    simp only [StageStep.processItem, hl, hr]
    exact countsLe_refl st

/-- One `IterStep` generator-loop iteration never decreases the counters. -/
theorem iterProcess_countsLe {α : Type} (r : Either α) (st : Status) :
    st.countsLe (IterStep.processItem r st).2 := by
  match hl : r.left, hr : r.right with
  | some f, some v =>
    simp only [IterStep.processItem, hl, hr]
    exact countsLe_trans (failed_countsLe st f) (scanned_countsLe _)
  | some f, none =>
    simp only [IterStep.processItem, hl, hr]
    exact failed_countsLe st f
  | none, some v =>
    simp only [IterStep.processItem, hl, hr]
    exact scanned_countsLe st
  | none, none =>
    simp only [IterStep.processItem, hl, hr]
    exact countsLe_refl st

/-- `ReturnStep.run` never decreases the counters. -/
theorem returnStep_run_countsLe {α : Type} (r : RunResult α) (st : Status) :
    st.countsLe (ReturnStep.run r st).2 := by
  match r with
  | .fatal msg => exact countsLe_refl st
  | .exn msg trace => exact failed_countsLe st _
  | .ok result =>
    match hl : result.left with
    | some f =>
      simp only [ReturnStep.run, hl]
      exact failed_countsLe st f
    | none =>
      match hr : result.right with
      | some v =>
        simp only [ReturnStep.run, hl, hr]
        exact scanned_countsLe st
      | none =>
        simp only [ReturnStep.run, hl, hr]
        exact countsLe_refl st

/-- `StageStep.run` never decreases the counters. -/
theorem stageStep_run_countsLe {α : Type} (events : List (IterEvent α)) :
    ∀ st : Status, st.countsLe (StageStep.run events st).2 := by
  induction events with
  | nil => intro st; exact countsLe_refl st
  | cons e rest ih =>
    intro st
    match e with
    | .item r => exact countsLe_trans (stageProcess_countsLe r st) (ih _)
    | .raiseFatal msg => exact countsLe_refl st
    | .raiseExn msg trace => exact failed_countsLe st _

/-- `IterStep.run` never decreases the counters. -/
theorem iterStep_run_countsLe {α : Type} (self : String)
    (events : List (IterEvent α)) :
    ∀ st : Status, st.countsLe (IterStep.run self events st).2.1 := by
  induction events with
  | nil => intro st; exact countsLe_refl st
  | cons e rest ih =>
    intro st
    match e with
    | .item r => exact countsLe_trans (iterProcess_countsLe r st) (ih _)
    | .raiseFatal msg => exact countsLe_refl st
    | .raiseExn msg trace => exact failed_countsLe st _

/-- Stopping the `StageStep` drain early yields counters no larger than
draining further. -/
theorem stageStep_run_take_countsLe {α : Type} (events : List (IterEvent α)) :
    ∀ (i : Nat) (st : Status),
      ((StageStep.run (events.take i) st).2).countsLe
        ((StageStep.run events st).2) := by
  induction events with
  | nil => intro i st; rw [List.take_nil]; exact countsLe_refl _
  | cons e rest ih =>
    intro i st
    match i with
    | 0 => exact stageStep_run_countsLe (e :: rest) st
    | i + 1 =>
      match e with
      | .item r => exact ih i (StageStep.processItem r st)
      | .raiseFatal msg => exact countsLe_refl _
      | .raiseExn msg trace => exact countsLe_refl _

/-- Stopping the `IterStep` generator early yields counters no larger than
pulling further. -/
theorem iterStep_run_take_countsLe {α : Type} (self : String)
    (events : List (IterEvent α)) :
    ∀ (i : Nat) (st : Status),
      ((IterStep.run self (events.take i) st).2.1).countsLe
        ((IterStep.run self events st).2.1) := by
  induction events with
  | nil => intro i st; rw [List.take_nil]; exact countsLe_refl _
  | cons e rest ih =>
    intro i st
    match i with
    | 0 => exact iterStep_run_countsLe self (e :: rest) st
    | i + 1 =>
      match e with
      | .item r => exact ih i (IterStep.processItem r st).2
      | .raiseFatal msg => exact countsLe_refl _
      | .raiseExn msg trace => exact countsLe_refl _

/-- C8: for every step variant and every run — including runs that end in
an unexpected error or a propagated `WorkflowFatalError` — the recorder's
`successCount` and `failureCount` are monotonically non-decreasing: the
post-run counts dominate the pre-run counts, and along a single drain or
generator run the counts after `i` consumed events never exceed the counts
after `j ≥ i` consumed events (nothing resets them mid-run). -/
theorem status_counts_monotone {α : Type} (self : String) (r : RunResult α)
    (events : List (IterEvent α)) (st : Status) (i j : Nat) (hij : i ≤ j) :
    st.countsLe (ReturnStep.run r st).2
    ∧ st.countsLe (StageStep.run events st).2
    ∧ st.countsLe (IterStep.run self events st).2.1
    ∧ (StageStep.statusUpTo events st i).countsLe
        (StageStep.statusUpTo events st j)
    ∧ (IterStep.statusUpTo self events st i).countsLe
        (IterStep.statusUpTo self events st j) := by
  refine ⟨returnStep_run_countsLe r st, stageStep_run_countsLe events st,
    iterStep_run_countsLe self events st, ?_, ?_⟩
  · have h := stageStep_run_take_countsLe (events.take j) i st
    rw [List.take_take, Nat.min_eq_left hij] at h
    exact h
  · have h := iterStep_run_take_countsLe self (events.take j) i st
    rw [List.take_take, Nat.min_eq_left hij] at h
    exact h

/-- Witness for C8 at concrete inputs: counters never decrease across a
`ReturnStep` payload run, a `StageStep` drain, an `IterStep` generator
run, or between pulls one and two of the two streaming variants. -/
theorem status_counts_monotone_witness :
    Status.countsLe ⟨0, 0, []⟩
      (ReturnStep.run (.ok ⟨none, some (1 : Nat)⟩) ⟨0, 0, []⟩).2
    ∧ Status.countsLe ⟨0, 0, []⟩
        (StageStep.run (demoResults.map IterEvent.item) ⟨0, 0, []⟩).2
    ∧ Status.countsLe ⟨0, 0, []⟩
        (IterStep.run "demo" (demoResults.map IterEvent.item) ⟨0, 0, []⟩).2.1
    ∧ (StageStep.statusUpTo (demoResults.map IterEvent.item)
          ⟨0, 0, []⟩ 1).countsLe
        (StageStep.statusUpTo (demoResults.map IterEvent.item) ⟨0, 0, []⟩ 2)
    ∧ (IterStep.statusUpTo "demo" (demoResults.map IterEvent.item)
          ⟨0, 0, []⟩ 1).countsLe
        (IterStep.statusUpTo "demo" (demoResults.map IterEvent.item)
          ⟨0, 0, []⟩ 2) :=
  status_counts_monotone "demo" (.ok ⟨none, some 1⟩)
    (demoResults.map IterEvent.item) ⟨0, 0, []⟩ 1 2 (by decide)

/-- C7: for a `BulkStep`, any exception raised inside `run()` — fatal or
otherwise — is observed by the caller unchanged, with the recorder exactly
as the step's own body left it: the class wraps `run()` in no catching,
converting, or recording logic. -/
theorem bulkStep_run_propagates (body : Status → BulkOutcome × Status)
    (st st2 : Status) (isFatal : Bool) (msg : String)
    (h : body st = (.raised isFatal msg, st2)) :
    BulkStep.run body st = (.raised isFatal msg, st2) :=
  h

/-- Witness for C7: a body raising a non-fatal exception is observed
unchanged by the caller of `BulkStep.run`. -/
theorem bulkStep_run_propagates_witness :
    BulkStep.run (fun s => (.raised false "bulk write error", s)) ⟨0, 0, []⟩
      = (.raised false "bulk write error", (⟨0, 0, []⟩ : Status)) :=
  bulkStep_run_propagates (fun s => (.raised false "bulk write error", s))
    ⟨0, 0, []⟩ ⟨0, 0, []⟩ false "bulk write error" rfl
